import Mathlib

/-!
Verification of the NBD server in this repository: a shallow embedding of
the wire codec (src/proto.rs), the in-memory backing store `MemBlocks` and
the transmission-phase dispatch loop `handle_ops` (src/server.rs), together
with theorems about the properties the design document states.

Bytes are modelled as natural numbers (each byte value below 256 when it
comes out of a serializer); byte streams are lists read from the front.
Machine integers are natural numbers with explicit wrap-around modulo
2 to the width where the Rust code can overflow. The file first gives all
definitions, translated from the source, and then the theorems.
-/

/-- Big-endian serialization of `v` into `k` bytes, most significant first
(the `byteorder::BE` writers used throughout src/proto.rs). -/
def beBytes : Nat → Nat → List Nat
  | 0, _ => []
  | k + 1, v => beBytes k (v / 256) ++ [v % 256]

/-- Big-endian value of a byte list (the `byteorder::BE` readers). -/
def beVal (bs : List Nat) : Nat := bs.foldl (fun a b => a * 256 + b) 0

/-- `Read::read_exact` into a buffer of `n` bytes from a byte-list stream:
succeeds iff at least `n` bytes are available. -/
def readExact (n : Nat) (s : List Nat) : Option (List Nat × List Nat) :=
  if n ≤ s.length then some (s.take n, s.drop n) else none

/-- `read_u16/u32/u64::<BE>`: `k` bytes, big-endian. -/
def readBE (k : Nat) (s : List Nat) : Option (Nat × List Nat) :=
  (readExact k s).map (fun p => (beVal p.1, p.2))

/-! Protocol constants (src/proto.rs). -/

def IHAVEOPT : Nat := 0x49484156454F5054
def REPLY_MAGIC : Nat := 0x3e889045565a9
def REQUEST_MAGIC : Nat := 0x25609513
def SIMPLE_REPLY_MAGIC : Nat := 0x67446698

/-! Protocol enums (src/proto.rs), with their `IntoPrimitive` /
`TryFromPrimitive` conversions. -/

/-- Option types during handshake haggling. -/
inductive OptType where
  | EXPORT_NAME | ABORT | LIST | PEEK_EXPORT | STARTTLS | INFO | GO
deriving DecidableEq

def OptType.toNat : OptType → Nat
  | .EXPORT_NAME => 1
  | .ABORT => 2
  | .LIST => 3
  | .PEEK_EXPORT => 4
  | .STARTTLS => 5
  | .INFO => 6
  | .GO => 7

def OptType.tryFrom (n : Nat) : Option OptType :=
  if n = 1 then some .EXPORT_NAME
  else if n = 2 then some .ABORT
  else if n = 3 then some .LIST
  else if n = 4 then some .PEEK_EXPORT
  else if n = 5 then some .STARTTLS
  else if n = 6 then some .INFO
  else if n = 7 then some .GO
  else none

/-- Info types inside INFO/GO options. -/
inductive InfoType where
  | EXPORT | NAME | DESCRIPTION | BLOCK_SIZE
deriving DecidableEq

def InfoType.toNat : InfoType → Nat
  | .EXPORT => 0
  | .NAME => 1
  | .DESCRIPTION => 2
  | .BLOCK_SIZE => 3

/-- Option-reply types. -/
inductive ReplyType where
  | ACK | SERVER | INFO
  | ERR_UNSUP | ERR_POLICY | ERR_INVALID | ERR_TLS_REQD
  | ERR_UNKNOWN | ERR_SHUTDOWN | ERR_BLOCK_SIZE_REQD | ERR_TOO_BIG
deriving DecidableEq

/-- Transmission-phase commands. -/
inductive Cmd where
  | READ | WRITE | DISCONNECT | FLUSH | TRIM
  | CACHE | WRITE_ZEROES | BLOCK_STATUS | RESIZE
deriving DecidableEq

def Cmd.toNat : Cmd → Nat
  | .READ => 0
  | .WRITE => 1
  | .DISCONNECT => 2
  | .FLUSH => 3
  | .TRIM => 4
  | .CACHE => 5
  | .WRITE_ZEROES => 6
  | .BLOCK_STATUS => 7
  | .RESIZE => 8

def Cmd.tryFrom (n : Nat) : Option Cmd :=
  if n = 0 then some .READ
  else if n = 1 then some .WRITE
  else if n = 2 then some .DISCONNECT
  else if n = 3 then some .FLUSH
  else if n = 4 then some .TRIM
  else if n = 5 then some .CACHE
  else if n = 6 then some .WRITE_ZEROES
  else if n = 7 then some .BLOCK_STATUS
  else if n = 8 then some .RESIZE
  else none

/-- errno-like error codes carried in simple replies. The constructor `Eio`
stands for the source's 5 (I/O error) variant. -/
inductive ErrorType where
  | OK | EPERM | Eio | ENOMEM | EINVAL | ENOSPC | EOVERFLOW | ENOTSUP | ESHUTDOWN
deriving DecidableEq

def ErrorType.toNat : ErrorType → Nat
  | .OK => 0
  | .EPERM => 1
  | .Eio => 5
  | .ENOMEM => 12
  | .EINVAL => 22
  | .ENOSPC => 28
  | .EOVERFLOW => 75
  | .ENOTSUP => 95
  | .ESHUTDOWN => 108

def ErrorType.tryFrom (n : Nat) : Option ErrorType :=
  if n = 0 then some .OK
  else if n = 1 then some .EPERM
  else if n = 5 then some .Eio
  else if n = 12 then some .ENOMEM
  else if n = 22 then some .EINVAL
  else if n = 28 then some .ENOSPC
  else if n = 75 then some .EOVERFLOW
  else if n = 95 then some .ENOTSUP
  else if n = 108 then some .ESHUTDOWN
  else none

/-- The `bitflags` universe of `CmdFlags`: FUA, NO_HOLE, DF, REQ_ONE, FAST_ZERO. -/
def CMD_FLAGS_ALL : Nat := 31

/-- `CmdFlags::from_bits`: defined iff no unknown bit is set. -/
def CmdFlags.from_bits (b : Nat) : Option Nat :=
  if b &&& CMD_FLAGS_ALL = b then some b else none

/-! The option frame (`Opt` in src/proto.rs). -/

/-- A parsed option frame. -/
structure Opt where
  typ : OptType
  data : List Nat
deriving DecidableEq

/-- `Opt::put`: IHAVEOPT magic, option type, data length (cast to u32), data. -/
def Opt.put (o : Opt) : List Nat :=
  beBytes 8 IHAVEOPT ++ beBytes 4 o.typ.toNat ++
    beBytes 4 (o.data.length % 2 ^ 32) ++ o.data

/-- `Opt::get`: parse an option frame, rejecting a wrong magic, an unknown
option type, and an option length that is not strictly below 10000. -/
def Opt.get (s : List Nat) : Option (Opt × List Nat) :=
  match readBE 8 s with
  | none => none
  | some (magic, s) =>
    if magic = IHAVEOPT then
      match readBE 4 s with
      | none => none
      | some (optionN, s) =>
        match OptType.tryFrom optionN with
        | none => none
        | some typ =>
          match readBE 4 s with
          | none => none
          | some (optionLen, s) =>
            if optionLen < 10000 then
              match readExact optionLen s with
              | none => none
              | some (data, s) => some (⟨typ, data⟩, s)
            else none
    else none

/-! The transmission-phase request frame (`Request` in src/proto.rs). -/

/-- A parsed request. `flags` holds the raw `CmdFlags` bits; `dataLen` is the
number of payload bytes stored into the session buffer for a WRITE. -/
structure Request where
  flags : Nat
  typ : Cmd
  handle : Nat
  offset : Nat
  len : Nat
  dataLen : Nat
deriving DecidableEq

/-- `Request::put`: magic, flags, type, handle, offset, len, then the first
`dataLen` bytes of `data` (the caller's payload buffer). -/
def Request.put (req : Request) (data : List Nat) : List Nat :=
  beBytes 4 REQUEST_MAGIC ++ beBytes 2 req.flags ++ beBytes 2 req.typ.toNat ++
    beBytes 8 req.handle ++ beBytes 8 req.offset ++ beBytes 4 req.len ++
    data.take req.dataLen

/-- `Request::get`: parse a request from the stream; for a WRITE,
`min len bufLen` payload bytes are read into the caller's buffer of length
`bufLen`. Returns the request, the filled payload prefix of the buffer, and
the rest of the stream. -/
def Request.get (bufLen : Nat) (s : List Nat) : Option (Request × List Nat × List Nat) :=
  match readBE 4 s with
  | none => none
  | some (magic, s) =>
    if magic = REQUEST_MAGIC then
      match readBE 2 s with
      | none => none
      | some (flagBits, s) =>
        match CmdFlags.from_bits flagBits with
        | none => none
        | some flags =>
          match readBE 2 s with
          | none => none
          | some (typN, s) =>
            match Cmd.tryFrom typN with
            | none => none
            | some typ =>
              match readBE 8 s with
              | none => none
              | some (handle, s) =>
                match readBE 8 s with
                | none => none
                | some (offset, s) =>
                  match readBE 4 s with
                  | none => none
                  | some (len, s) =>
                    if typ = Cmd.WRITE then
                      match readExact (min len bufLen) s with
                      | none => none
                      | some (payload, s) =>
                        some (⟨flags, typ, handle, offset, len, min len bufLen⟩, payload, s)
                    else
                      some (⟨flags, typ, handle, offset, len, 0⟩, [], s)
    else none

/-! The simple reply frame (`SimpleReply` in src/proto.rs). -/

/-- A simple reply: error code, echoed handle, payload. -/
structure SimpleReply where
  err : ErrorType
  handle : Nat
  data : List Nat
deriving DecidableEq

/-- `SimpleReply::data`: a successful reply carrying `d`, echoing the
request's handle. -/
def SimpleReply.mkData (req : Request) (d : List Nat) : SimpleReply :=
  ⟨.OK, req.handle, d⟩

/-- `SimpleReply::ok`: a successful reply with no payload. -/
def SimpleReply.mkOk (req : Request) : SimpleReply :=
  SimpleReply.mkData req []

/-- `SimpleReply::err`: an error reply with no payload. -/
def SimpleReply.mkErr (e : ErrorType) (req : Request) : SimpleReply :=
  ⟨e, req.handle, []⟩

/-- `SimpleReply::put`: magic, error, handle, payload. -/
def SimpleReply.put (r : SimpleReply) : List Nat :=
  beBytes 4 SIMPLE_REPLY_MAGIC ++ beBytes 4 r.err.toNat ++
    beBytes 8 r.handle ++ r.data

/-- `SimpleReply::get`: the magic is read with a plain `read` call that can
fill fewer than 4 bytes (the rest of the stack buffer stays zero), then the
error, the handle, and exactly `bufLen` payload bytes into the caller's
buffer. -/
def SimpleReply.get (bufLen : Nat) (s : List Nat) : Option (SimpleReply × List Nat) :=
  let magic := beVal (s.take 4 ++ List.replicate (4 - s.length) 0)
  let s1 := s.drop 4
  if magic = SIMPLE_REPLY_MAGIC then
    match readBE 4 s1 with
    | none => none
    | some (errN, s2) =>
      match ErrorType.tryFrom errN with
      | none => none
      | some err =>
        match readBE 8 s2 with
        | none => none
        | some (handle, s3) =>
          match readExact bufLen s3 with
          | none => none
          | some (data, s4) => some (⟨err, handle, data⟩, s4)
  else none

/-! The in-memory backing store (`MemBlocks` in src/server.rs). The store is
a byte vector behind a mutex; each operation is modelled as a function from
the vector to a result together with the vector afterwards. The offset
arithmetic `off + buf.len()` is done in `usize`; on the 64-bit target this
wraps modulo 2^64 in release builds, which the model makes explicit. A slice
operation whose range has become invalid after such a wrap aborts the thread;
that outcome is the `crash` result (in debug builds the overflowing addition
itself aborts at the same inputs). -/

def U64 : Nat := 2 ^ 64

/-- Host I/O error kinds that reach `ErrorType::from_io_kind`. -/
inductive IoKind where
  | permissionDenied | invalidInput | unexpectedEof | other
deriving DecidableEq

/-- Result of a `Blocks` operation: success, an `io::Error` of some kind, or
a thread abort. -/
inductive MRes (α : Type) where
  | ok (a : α)
  | err (k : IoKind)
  | crash
deriving DecidableEq

/-- `MemBlocks::read_at`: bounds-check `off + buf.len() > data.len()` (with
the addition wrapping modulo 2^64), then copy `data[off..off + buf.len()]`
into the buffer. `n` is the length of the caller's buffer; the filled buffer
is returned. -/
def MemBlocks.read_at (data : List Nat) (off n : Nat) : MRes (List Nat) × List Nat :=
  if data.length < (off + n) % U64 then (.err .invalidInput, data)
  else if off + n < U64 then (.ok ((data.drop off).take n), data)
  else (.crash, data)

/-- `MemBlocks::write_at`: the same wrapped bounds check, then overwrite
`data[off..off + buf.len()]` with `buf`. -/
def MemBlocks.write_at (data buf : List Nat) (off : Nat) : MRes Unit × List Nat :=
  if data.length < (off + buf.length) % U64 then (.err .invalidInput, data)
  else if off + buf.length < U64 then
    (.ok (), data.take off ++ buf ++ data.drop (off + buf.length))
  else (.crash, data)

/-- `MemBlocks::size`: the length of the vector. -/
def MemBlocks.size (data : List Nat) : MRes Nat × List Nat :=
  (.ok data.length, data)

/-- `MemBlocks::flush`: a no-op. -/
def MemBlocks.flush (data : List Nat) : MRes Unit × List Nat :=
  (.ok (), data)

/-- `ErrorType::from_io_kind`: the error mapping used for per-request error
replies. -/
def ErrorType.from_io_kind : IoKind → ErrorType
  | .permissionDenied => .EPERM
  | .invalidInput => .EOVERFLOW
  | .unexpectedEof => .EOVERFLOW
  | .other => .Eio

/-- Result of an `Export` operation: success, an `ErrorType` for the reply,
or a thread abort. -/
inductive XRes (α : Type) where
  | ok (a : α)
  | err (e : ErrorType)
  | crash
deriving DecidableEq

/-- The session's scratch buffer size: `vec![0u8; 4096 * 64]`. -/
def BUF_SIZE : Nat := 4096 * 64

/-- `Export::read`: refuse with EOVERFLOW if the destination buffer is
shorter than `len`, otherwise read `len` bytes at `off` into the buffer,
mapping an I/O error kind through `from_io_kind`. `bufLen` is the length of
the destination buffer. -/
def Export.read (store : List Nat) (off len bufLen : Nat) : XRes (List Nat) :=
  if bufLen < len then .err .EOVERFLOW
  else
    match (MemBlocks.read_at store off len).1 with
    | .ok d => .ok d
    | .err k => .err (ErrorType.from_io_kind k)
    | .crash => .crash

/-- `Export::write`: refuse with EOVERFLOW if `data` is shorter than `len`,
otherwise write `data[..len]` at `off`. Returns the store afterwards. -/
def Export.write (store : List Nat) (off len : Nat) (data : List Nat) : XRes (List Nat) :=
  if data.length < len then .err .EOVERFLOW
  else
    match MemBlocks.write_at store (data.take len) off with
    | (.ok _, store1) => .ok store1
    | (.err k, _) => .err (ErrorType.from_io_kind k)
    | (.crash, _) => .crash

/-- `CmdFlags::FUA`. -/
def CmdFlags.FUA : Nat := 1

/-- `CmdFlags::FUA.complement()`: every defined `CmdFlags` bit except FUA. -/
def FUA_COMPLEMENT : Nat := 30

/-- One iteration of `ServerInner::handle_ops` on an already-parsed request.
`buf` is the session buffer at dispatch time (its first `req.dataLen` bytes
hold the payload of a WRITE). Returns the store afterwards, the reply sent
(if any), and whether the loop continues. A `crash` of the backing store
ends the session with no reply. -/
def step (store : List Nat) (req : Request) (buf : List Nat) :
    List Nat × Option SimpleReply × Bool :=
  if req.flags &&& FUA_COMPLEMENT ≠ 0 then
    (store, some (SimpleReply.mkErr .ENOTSUP req), true)
  else
    match req.typ with
    | .READ =>
      match Export.read store req.offset req.len buf.length with
      | .ok d => (store, some (SimpleReply.mkData req d), true)
      | .err e => (store, some (SimpleReply.mkErr e req), true)
      | .crash => (store, none, false)
    | .WRITE =>
      match Export.write store req.offset req.dataLen buf with
      | .ok store1 =>
        let store2 :=
          if req.flags &&& CmdFlags.FUA = CmdFlags.FUA then (MemBlocks.flush store1).2
          else store1
        (store2, some (SimpleReply.mkOk req), true)
      | .err e => (store, some (SimpleReply.mkErr e req), true)
      | .crash => (store, none, false)
    | .DISCONNECT => (store, none, false)
    | .FLUSH => ((MemBlocks.flush store).2, some (SimpleReply.mkOk req), true)
    | .TRIM => (store, some (SimpleReply.mkOk req), true)
    | _ => (store, some (SimpleReply.mkErr .ENOTSUP req), false)

/-- The transmission-phase loop over a sequence of parsed requests, each
paired with the session buffer contents at its dispatch. Returns the replies
sent, in order. -/
def handleOps (store : List Nat) : List (Request × List Nat) → List SimpleReply
  | [] => []
  | (req, buf) :: rest =>
    match step store req buf with
    | (store1, some rep, true) => rep :: handleOps store1 rest
    | (_, some rep, false) => [rep]
    | (_, none, _) => []

/-! The INFO/GO option responses (`ServerInner::info_responses` in
src/server.rs). -/

/-- An option reply frame in structured form. -/
structure OptReply where
  opt : OptType
  reply_type : ReplyType
  data : List Nat
deriving DecidableEq

/-- `OptReply::ack`. -/
def OptReply.ack (opt : OptType) : OptReply :=
  ⟨opt, .ACK, []⟩

/-- The transmission flags the server advertises:
`HAS_FLAGS | SEND_FLUSH | SEND_FUA`. -/
def TRANSMIT_FLAGS : Nat := 1 ||| 4 ||| 8

/-- The INFO(EXPORT) reply: info type, export size, transmission flags. -/
def exportInfoReply (size : Nat) (optTyp : OptType) : OptReply :=
  ⟨optTyp, .INFO,
    beBytes 2 InfoType.EXPORT.toNat ++ beBytes 8 size ++ beBytes 2 TRANSMIT_FLAGS⟩

/-- The INFO(BLOCK_SIZE) reply: info type, minimum 1, preferred 4096,
maximum 4096 * 32. -/
def blockSizeInfoReply (optTyp : OptType) : OptReply :=
  ⟨optTyp, .INFO,
    beBytes 2 InfoType.BLOCK_SIZE.toNat ++ beBytes 4 1 ++ beBytes 4 4096 ++
      beBytes 4 (4096 * 32)⟩

/-- The loop body of `info_responses` over the iterator
`info_req.typs.iter().chain([InfoType::EXPORT].iter())`: one reply per
info type, with NAME and DESCRIPTION answered by a single ERR_UNSUP that
ends the exchange early; an ACK closes the full traversal. -/
def infoResponsesGo (size : Nat) (optTyp : OptType) : List InfoType → List OptReply
  | [] => [OptReply.ack optTyp]
  | t :: ts =>
    match t with
    | .EXPORT => exportInfoReply size optTyp :: infoResponsesGo size optTyp ts
    | .BLOCK_SIZE => blockSizeInfoReply optTyp :: infoResponsesGo size optTyp ts
    | .NAME => [⟨optTyp, .ERR_UNSUP, []⟩]
    | .DESCRIPTION => [⟨optTyp, .ERR_UNSUP, []⟩]

/-- `ServerInner::info_responses`: the replies sent for an INFO or GO option
whose request listed `typs`; `InfoType::EXPORT` is always chained onto the
end of the requested list. -/
def infoResponses (size : Nat) (optTyp : OptType) (typs : List InfoType) : List OptReply :=
  infoResponsesGo size optTyp (typs ++ [InfoType.EXPORT])

/-- Reply selection for a single requested info type. -/
def infoReplyFor (size : Nat) (optTyp : OptType) : InfoType → OptReply
  | .EXPORT => exportInfoReply size optTyp
  | .BLOCK_SIZE => blockSizeInfoReply optTyp
  | .NAME => ⟨optTyp, .ERR_UNSUP, []⟩
  | .DESCRIPTION => ⟨optTyp, .ERR_UNSUP, []⟩

/-! Theorems. First the codec and backing-store helper lemmas, then the
claims of the design document. -/

theorem beBytes_length (k v : Nat) : (beBytes k v).length = k := by
  induction k generalizing v with
  | zero => rfl
  | succ k ih => simp [beBytes, ih]

theorem beVal_append_singleton (bs : List Nat) (b : Nat) :
    beVal (bs ++ [b]) = beVal bs * 256 + b := by
  simp [beVal, List.foldl_append]

theorem beVal_beBytes (k v : Nat) (h : v < 256 ^ k) : beVal (beBytes k v) = v := by
  induction k generalizing v with
  | zero =>
    interval_cases v
    rfl
  | succ k ih =>
    have hv : v / 256 < 256 ^ k := by
      rw [Nat.div_lt_iff_lt_mul (by norm_num)]
      calc v < 256 ^ (k + 1) := h
        _ = 256 ^ k * 256 := by ring
    rw [beBytes, beVal_append_singleton, ih _ hv]
    omega

theorem readExact_append (xs rest : List Nat) (n : Nat) (h : xs.length = n) :
    readExact n (xs ++ rest) = some (xs, rest) := by
  subst h
  simp [readExact, List.take_left, List.drop_left]

theorem readBE_beBytes (k v : Nat) (rest : List Nat) (h : v < 256 ^ k) :
    readBE k (beBytes k v ++ rest) = some (v, rest) := by
  rw [readBE, readExact_append _ _ _ (beBytes_length k v)]
  simp [beVal_beBytes k v h]

theorem optType_tryFrom_toNat (t : OptType) : OptType.tryFrom t.toNat = some t := by
  cases t <;> rfl

theorem optType_toNat_lt (t : OptType) : t.toNat < 256 ^ 4 := by
  cases t <;> decide

theorem cmd_tryFrom_toNat (t : Cmd) : Cmd.tryFrom t.toNat = some t := by
  cases t <;> rfl

theorem cmd_toNat_lt (t : Cmd) : t.toNat < 256 ^ 2 := by
  cases t <;> decide

theorem errType_tryFrom_toNat (t : ErrorType) : ErrorType.tryFrom t.toNat = some t := by
  cases t <;> rfl

theorem errType_toNat_lt (t : ErrorType) : t.toNat < 256 ^ 4 := by
  cases t <;> decide

/-! Helper lemmas about `MemBlocks`. -/

/-- An in-bounds `write_at` succeeds and splices the buffer into the store. -/
theorem write_at_ok (store buf : List Nat) (off : Nat)
    (h : off + buf.length ≤ store.length) (hs : store.length < U64) :
    MemBlocks.write_at store buf off =
      (MRes.ok (), store.take off ++ buf ++ store.drop (off + buf.length)) := by
  have hlt : off + buf.length < U64 := lt_of_le_of_lt h hs
  unfold MemBlocks.write_at
  rw [Nat.mod_eq_of_lt hlt, if_neg (by omega), if_pos hlt]

/-- `write_at` never changes the length of the store. -/
theorem write_at_length (store buf : List Nat) (off : Nat) :
    (MemBlocks.write_at store buf off).2.length = store.length := by
  unfold MemBlocks.write_at
  split
  · rfl
  · split
    · rename_i h1 h2
      simp only [List.length_append, List.length_take, List.length_drop]
      rw [Nat.mod_eq_of_lt h2] at h1
      omega
    · rfl

/-- `read_at` returns the store unchanged. -/
theorem read_at_store (store : List Nat) (off n : Nat) :
    (MemBlocks.read_at store off n).2 = store := by
  unfold MemBlocks.read_at
  split
  · rfl
  · split
    · rfl
    · rfl

/-- C1: write-then-read consistency on the in-memory backing store: for every
store contents, offset `off` and data `d` with `off + d.length` within the
store, `write_at d off` succeeds, `flush` succeeds, and a `read_at` of
`d.length` bytes at `off` afterwards returns exactly `d`. -/
theorem mem_write_flush_read (store d : List Nat) (off : Nat)
    (h : off + d.length ≤ store.length) (hs : store.length < U64) :
    (MemBlocks.write_at store d off).1 = MRes.ok () ∧
    (MemBlocks.flush (MemBlocks.write_at store d off).2).1 = MRes.ok () ∧
    (MemBlocks.read_at (MemBlocks.write_at store d off).2 off d.length).1 = MRes.ok d := by
  have hw := write_at_ok store d off h hs
  refine ⟨by rw [hw], rfl, ?_⟩
  rw [hw]
  have hlen : (store.take off ++ d ++ store.drop (off + d.length)).length = store.length := by
    simp only [List.length_append, List.length_take, List.length_drop]
    omega
  have hlt : off + d.length < U64 := lt_of_le_of_lt h hs
  unfold MemBlocks.read_at
  rw [Nat.mod_eq_of_lt hlt, hlen, if_neg (by omega), if_pos hlt]
  have htk : (store.take off).length = off := by
    simp only [List.length_take]
    omega
  rw [List.append_assoc, List.drop_left' htk, List.take_left]

theorem mem_write_flush_read_witness :
    (3 + ([7, 8] : List Nat).length ≤ ([1, 1, 1, 1, 1, 1] : List Nat).length ∧
      ([1, 1, 1, 1, 1, 1] : List Nat).length < U64) ∧
    (MemBlocks.write_at [1, 1, 1, 1, 1, 1] [7, 8] 3).1 = MRes.ok () ∧
    (MemBlocks.flush (MemBlocks.write_at [1, 1, 1, 1, 1, 1] [7, 8] 3).2).1 = MRes.ok () ∧
    (MemBlocks.read_at (MemBlocks.write_at [1, 1, 1, 1, 1, 1] [7, 8] 3).2 3
      ([7, 8] : List Nat).length).1 = MRes.ok [7, 8] :=
  ⟨⟨by decide, by decide⟩, mem_write_flush_read [1, 1, 1, 1, 1, 1] [7, 8] 3 (by decide) (by decide)⟩

/-- C9: the in-memory bounds check does not survive offset overflow: at
`off = 2^64 - 1` with a 2-byte buffer on a 10-byte store, the wrapped check
`off + buf.len() > data.len()` passes and the slice operation aborts the
session thread instead of returning an invalid-input error. -/
theorem mem_bounds_overflow_crash :
    (MemBlocks.read_at (List.replicate 10 0) (2 ^ 64 - 1) 2).1 = MRes.crash ∧
    (MemBlocks.write_at (List.replicate 10 0) [7, 7] (2 ^ 64 - 1)).1 = MRes.crash := by
  constructor
  · unfold MemBlocks.read_at
    rw [if_neg (by norm_num [U64]), if_neg (by norm_num [U64])]
  · unfold MemBlocks.write_at
    rw [if_neg (by norm_num [U64]), if_neg (by norm_num [U64])]

/-- C10: frame property of the in-memory backing store: `read_at`, `flush`
and `size` leave the store unchanged, `size` returns its length, no
`write_at` changes the length, and a successful in-bounds `write_at` changes
exactly the bytes in `[off, off + buf.length)` to `buf`, leaving every other
byte as it was. -/
theorem mem_frame (store buf : List Nat) (off n : Nat)
    (h : off + buf.length ≤ store.length) (hs : store.length < U64) :
    (MemBlocks.read_at store off n).2 = store ∧
    (MemBlocks.flush store).2 = store ∧
    (MemBlocks.size store).2 = store ∧
    (MemBlocks.size store).1 = MRes.ok store.length ∧
    (∀ (off2 : Nat) (buf2 : List Nat),
      (MemBlocks.write_at store buf2 off2).2.length = store.length) ∧
    (MemBlocks.write_at store buf off).1 = MRes.ok () ∧
    (∀ i, off ≤ i → i < off + buf.length →
      (MemBlocks.write_at store buf off).2.getD i 0 = buf.getD (i - off) 0) ∧
    (∀ i, i < off ∨ off + buf.length ≤ i →
      (MemBlocks.write_at store buf off).2.getD i 0 = store.getD i 0) := by
  have hw := write_at_ok store buf off h hs
  have htk : (store.take off).length = off := by
    simp only [List.length_take]
    omega
  refine ⟨read_at_store store off n, rfl, rfl, rfl,
    fun off2 buf2 => write_at_length store buf2 off2, by rw [hw], ?_, ?_⟩
  · intro i h1 h2
    rw [hw]
    simp only [List.getD_eq_getElem?_getD, List.append_assoc]
    rw [List.getElem?_append_right (by omega : (store.take off).length ≤ i), htk,
      List.getElem?_append_left (by omega : i - off < buf.length)]
  · intro i hio
    rw [hw]
    simp only [List.getD_eq_getElem?_getD, List.append_assoc]
    cases hio with
    | inl hlt =>
      rw [List.getElem?_append_left (by omega : i < (store.take off).length),
        List.getElem?_take, if_pos hlt]
    | inr hge =>
      rw [List.getElem?_append_right (by omega : (store.take off).length ≤ i), htk,
        List.getElem?_append_right (by omega : buf.length ≤ i - off),
        List.getElem?_drop]
      have hidx : off + buf.length + (i - off - buf.length) = i := by omega
      rw [hidx]

theorem mem_frame_witness :
    (1 + ([9, 9] : List Nat).length ≤ ([1, 2, 3, 4, 5] : List Nat).length ∧
      ([1, 2, 3, 4, 5] : List Nat).length < U64) ∧
    (MemBlocks.write_at [1, 2, 3, 4, 5] [9, 9] 1).1 = MRes.ok () :=
  ⟨⟨by decide, by decide⟩,
    (mem_frame [1, 2, 3, 4, 5] [9, 9] 1 0 (by decide) (by decide)).2.2.2.2.2.1⟩

/-! Helper lemmas about `Export` and `step`. -/

theorem read_at_ok_length (store : List Nat) (off n : Nat) (d : List Nat)
    (h : (MemBlocks.read_at store off n).1 = MRes.ok d) : d.length = n := by
  unfold MemBlocks.read_at at h
  split at h
  · exact MRes.noConfusion h
  · split at h
    · rename_i h1 h2
      injection h with h'
      rw [Nat.mod_eq_of_lt h2] at h1
      rw [← h']
      simp only [List.length_take, List.length_drop]
      omega
    · exact MRes.noConfusion h

theorem export_read_ok_length (store : List Nat) (off len bufLen : Nat) (d : List Nat)
    (h : Export.read store off len bufLen = XRes.ok d) : d.length = len := by
  unfold Export.read at h
  split at h
  · exact XRes.noConfusion h
  · split at h
    · rename_i d0 heq
      injection h with h'
      rw [← h']
      exact read_at_ok_length store off len d0 heq
    · exact XRes.noConfusion h
    · exact XRes.noConfusion h

theorem from_io_kind_ne_ok (k : IoKind) : ErrorType.from_io_kind k ≠ ErrorType.OK := by
  cases k <;> decide

/-- Every reply `step` produces echoes the request's handle; when `step`
produces no reply it also stops the loop. -/
theorem step_shape (store : List Nat) (req : Request) (buf : List Nat) :
    (∃ s1 rep cont, step store req buf = (s1, some rep, cont) ∧ rep.handle = req.handle) ∨
    (∃ s1, step store req buf = (s1, none, false)) := by
  unfold step
  split
  · exact Or.inl ⟨_, _, _, rfl, rfl⟩
  · split
    · split
      · exact Or.inl ⟨_, _, _, rfl, rfl⟩
      · exact Or.inl ⟨_, _, _, rfl, rfl⟩
      · exact Or.inr ⟨_, rfl⟩
    · split
      · exact Or.inl ⟨_, _, _, rfl, rfl⟩
      · exact Or.inl ⟨_, _, _, rfl, rfl⟩
      · exact Or.inr ⟨_, rfl⟩
    · exact Or.inr ⟨_, rfl⟩
    · exact Or.inl ⟨_, _, _, rfl, rfl⟩
    · exact Or.inl ⟨_, _, _, rfl, rfl⟩
    · exact Or.inl ⟨_, _, _, rfl, rfl⟩

/-- C2: handle echo: for any sequence of requests processed sequentially on
one connection, the i-th reply carries exactly the i-th request's handle
(every reply the dispatch loop emits echoes the handle of the request it
answers, and replies are emitted in request order). -/
theorem handle_echo (store : List Nat) (reqs : List (Request × List Nat)) (i : Nat)
    (h : i < (handleOps store reqs).length) :
    i < reqs.length ∧
    ((handleOps store reqs).getD i ⟨ErrorType.OK, 0, []⟩).handle =
      ((reqs.getD i (⟨0, Cmd.READ, 0, 0, 0, 0⟩, [])).1).handle := by
  induction reqs generalizing store i with
  | nil => simp [handleOps] at h
  | cons hd tl ih =>
    obtain ⟨req, buf⟩ := hd
    rcases step_shape store req buf with ⟨s1, rep, cont, hstep, hh⟩ | ⟨s1, hstep⟩
    · cases cont
      · have hops : handleOps store ((req, buf) :: tl) = [rep] := by
          simp only [handleOps]
          rw [hstep]
        rw [hops] at h ⊢
        simp only [List.length_singleton] at h
        have hi : i = 0 := by omega
        subst hi
        exact ⟨by simp, by simpa using hh⟩
      · have hops : handleOps store ((req, buf) :: tl) = rep :: handleOps s1 tl := by
          simp only [handleOps]
          rw [hstep]
        rw [hops] at h ⊢
        cases i with
        | zero => exact ⟨by simp, by simpa using hh⟩
        | succ j =>
          simp only [List.length_cons] at h
          have h' : j < (handleOps s1 tl).length := by omega
          obtain ⟨h1, h2⟩ := ih s1 j h'
          refine ⟨by simpa using Nat.succ_lt_succ h1, ?_⟩
          simpa [List.getD_cons_succ] using h2
    · have hops : handleOps store ((req, buf) :: tl) = [] := by
        simp only [handleOps]
        rw [hstep]
      rw [hops] at h
      simp at h

/-- C3: for every READ request, a successful reply (err = OK) carries exactly
`len` payload bytes, and an error reply carries an empty payload. -/
theorem read_reply_payload (store : List Nat) (req : Request) (buf : List Nat)
    (hty : req.typ = Cmd.READ) :
    ∀ r, (step store req buf).2.1 = some r →
      (r.err = ErrorType.OK → r.data.length = req.len) ∧
      (r.err ≠ ErrorType.OK → r.data = []) := by
  intro r hr
  unfold step at hr
  split at hr
  · injection hr with hr'
    rw [← hr']
    exact ⟨fun hok => by simp [SimpleReply.mkErr] at hok, fun _ => rfl⟩
  · split at hr
    case h_1 heq =>
      cases hEr : Export.read store req.offset req.len buf.length with
      | ok d =>
        rw [hEr] at hr
        injection hr with hr'
        rw [← hr']
        refine ⟨fun _ => ?_, fun hne => absurd rfl hne⟩
        exact export_read_ok_length store req.offset req.len buf.length d hEr
      | err e =>
        rw [hEr] at hr
        injection hr with hr'
        rw [← hr']
        refine ⟨fun hok => ?_, fun _ => rfl⟩
        exfalso
        unfold Export.read at hEr
        split at hEr
        · injection hEr with h2
          rw [← h2] at hok
          simp [SimpleReply.mkErr] at hok
        · split at hEr
          · exact XRes.noConfusion hEr
          · rename_i k hk
            injection hEr with h2
            rw [← h2] at hok
            simp [SimpleReply.mkErr] at hok
            exact from_io_kind_ne_ok k hok
          · exact XRes.noConfusion hEr
      | crash =>
        rw [hEr] at hr
        exact Option.noConfusion hr
    case h_2 heq => exact absurd (hty.symm.trans heq) (by decide)
    case h_3 heq => exact absurd (hty.symm.trans heq) (by decide)
    case h_4 heq => exact absurd (hty.symm.trans heq) (by decide)
    case h_5 heq => exact absurd (hty.symm.trans heq) (by decide)
    case h_6 h1 h2 h3 h4 h5 => exact absurd hty h1

/-- A READ whose `len` exceeds the destination buffer is answered with an
EOVERFLOW error reply and the loop continues. -/
theorem step_read_big (store : List Nat) (req : Request) (buf : List Nat)
    (hty : req.typ = Cmd.READ) (hlen : buf.length < req.len)
    (hfl : req.flags &&& FUA_COMPLEMENT = 0) :
    step store req buf = (store, some (SimpleReply.mkErr ErrorType.EOVERFLOW req), true) := by
  unfold step
  rw [if_neg (by simp [hfl]), hty]
  have hrd : Export.read store req.offset req.len buf.length = XRes.err ErrorType.EOVERFLOW := by
    unfold Export.read
    rw [if_pos hlen]
  rw [hrd]

/-- An in-bounds WRITE dispatch succeeds with an OK reply and continues. -/
theorem step_write_ok (store : List Nat) (req : Request) (buf : List Nat)
    (hty : req.typ = Cmd.WRITE) (hfl : req.flags &&& FUA_COMPLEMENT = 0)
    (hdl : req.dataLen ≤ buf.length) (hin : req.offset + req.dataLen ≤ store.length)
    (hs : store.length < U64) :
    (step store req buf).2.1 = some (SimpleReply.mkOk req) ∧
    (step store req buf).2.2 = true := by
  have htk : (buf.take req.dataLen).length = req.dataLen := by
    simp only [List.length_take]
    omega
  have hw := write_at_ok store (buf.take req.dataLen) req.offset (by omega) hs
  have hew : Export.write store req.offset req.dataLen buf =
      XRes.ok (store.take req.offset ++ buf.take req.dataLen ++
        store.drop (req.offset + (buf.take req.dataLen).length)) := by
    unfold Export.write
    rw [if_neg (by omega), hw]
  constructor
  · unfold step
    rw [if_neg (by simp [hfl]), hty, hew]
  · unfold step
    rw [if_neg (by simp [hfl]), hty, hew]

/-- An out-of-bounds WRITE dispatch (no offset overflow) is answered with an
EOVERFLOW error reply and continues. -/
theorem step_write_err (store : List Nat) (req : Request) (buf : List Nat)
    (hty : req.typ = Cmd.WRITE) (hfl : req.flags &&& FUA_COMPLEMENT = 0)
    (hdl : req.dataLen ≤ buf.length) (hout : store.length < req.offset + req.dataLen)
    (hov : req.offset + req.dataLen < U64) :
    (step store req buf).2.1 = some (SimpleReply.mkErr ErrorType.EOVERFLOW req) ∧
    (step store req buf).2.2 = true := by
  have htk : (buf.take req.dataLen).length = req.dataLen := by
    simp only [List.length_take]
    omega
  have hwr : MemBlocks.write_at store (buf.take req.dataLen) req.offset =
      (MRes.err IoKind.invalidInput, store) := by
    unfold MemBlocks.write_at
    rw [htk, Nat.mod_eq_of_lt hov, if_pos hout]
  have hew : Export.write store req.offset req.dataLen buf =
      XRes.err ErrorType.EOVERFLOW := by
    unfold Export.write
    rw [if_neg (by omega), hwr]
    rfl
  constructor
  · unfold step
    rw [if_neg (by simp [hfl]), hty, hew]
  · unfold step
    rw [if_neg (by simp [hfl]), hty, hew]

/-- C5 (amended): a READ request whose `len` exceeds the session buffer
capacity of 262144 bytes is answered with an error reply carrying
err = EOVERFLOW and an empty payload (not a truncated successful reply);
the store is untouched and the session continues. -/
theorem read_big_len_eoverflow (store : List Nat) (req : Request) (buf : List Nat)
    (hty : req.typ = Cmd.READ) (hbuf : buf.length = BUF_SIZE) (hlen : BUF_SIZE < req.len)
    (hfl : req.flags &&& FUA_COMPLEMENT = 0) :
    step store req buf = (store, some (SimpleReply.mkErr ErrorType.EOVERFLOW req), true) :=
  step_read_big store req buf hty (by omega) hfl

theorem read_big_len_eoverflow_witness :
    ((⟨0, Cmd.READ, 42, 3, BUF_SIZE + 7, 0⟩ : Request).typ = Cmd.READ ∧
      (List.replicate BUF_SIZE 0).length = BUF_SIZE ∧
      BUF_SIZE < (⟨0, Cmd.READ, 42, 3, BUF_SIZE + 7, 0⟩ : Request).len ∧
      (⟨0, Cmd.READ, 42, 3, BUF_SIZE + 7, 0⟩ : Request).flags &&& FUA_COMPLEMENT = 0) ∧
    step [1, 2, 3] ⟨0, Cmd.READ, 42, 3, BUF_SIZE + 7, 0⟩ (List.replicate BUF_SIZE 0) =
      ([1, 2, 3], some (SimpleReply.mkErr ErrorType.EOVERFLOW ⟨0, Cmd.READ, 42, 3, BUF_SIZE + 7, 0⟩),
        true) :=
  ⟨⟨rfl, by rw [List.length_replicate], by norm_num, by decide⟩,
    read_big_len_eoverflow [1, 2, 3] ⟨0, Cmd.READ, 42, 3, BUF_SIZE + 7, 0⟩
      (List.replicate BUF_SIZE 0) rfl (by rw [List.length_replicate]) (by norm_num) (by decide)⟩

/-- C5 counterexample: a READ with `len = 262145` against a 10-byte store
and the 262144-byte session buffer is answered with an EOVERFLOW error
reply, not a successful reply of 262144 bytes. -/
theorem read_big_len_counterexample :
    (step (List.replicate 10 1) ⟨0, Cmd.READ, 42, 0, 262145, 0⟩
        (List.replicate BUF_SIZE 0)).2.1 =
      some ⟨ErrorType.EOVERFLOW, 42, []⟩ ∧
    ((step (List.replicate 10 1) ⟨0, Cmd.READ, 42, 0, 262145, 0⟩
        (List.replicate BUF_SIZE 0)).2.1).map SimpleReply.err ≠ some ErrorType.OK := by
  have h := step_read_big (List.replicate 10 1) ⟨0, Cmd.READ, 42, 0, 262145, 0⟩
    (List.replicate BUF_SIZE 0) rfl (by rw [List.length_replicate]; norm_num [BUF_SIZE])
    (by decide)
  rw [h]
  exact ⟨rfl, by decide⟩

/-- C4 (amended): a WRITE request whose `len` exceeds the session buffer
capacity of 262144 bytes has its payload truncated at parse time
(`data_len = min(len, 262144)` = 262144); the dispatch loop performs the
truncated write and answers with its outcome - an OK reply when the
truncated range is in bounds, an EOVERFLOW error reply when it is out of
bounds - and in both cases the loop continues rather than terminating. -/
theorem write_big_len_truncated (store : List Nat) (req : Request) (buf : List Nat)
    (hty : req.typ = Cmd.WRITE) (_hlen : BUF_SIZE < req.len) (hdl : req.dataLen = BUF_SIZE)
    (hbuf : buf.length = BUF_SIZE) (hfl : req.flags &&& FUA_COMPLEMENT = 0)
    (hs : store.length < U64) :
    (req.offset + BUF_SIZE ≤ store.length →
      (step store req buf).2.1 = some (SimpleReply.mkOk req) ∧
      (step store req buf).2.2 = true) ∧
    (store.length < req.offset + BUF_SIZE → req.offset + BUF_SIZE < U64 →
      (step store req buf).2.1 = some (SimpleReply.mkErr ErrorType.EOVERFLOW req) ∧
      (step store req buf).2.2 = true) := by
  constructor
  · intro hin
    exact step_write_ok store req buf hty hfl (by omega) (by omega) hs
  · intro hout hnov
    exact step_write_err store req buf hty hfl (by omega) (by omega) (by omega)

theorem write_big_len_truncated_witness :
    ((⟨0, Cmd.WRITE, 7, 5, BUF_SIZE + 2, BUF_SIZE⟩ : Request).typ = Cmd.WRITE ∧
      BUF_SIZE < (⟨0, Cmd.WRITE, 7, 5, BUF_SIZE + 2, BUF_SIZE⟩ : Request).len ∧
      (⟨0, Cmd.WRITE, 7, 5, BUF_SIZE + 2, BUF_SIZE⟩ : Request).dataLen = BUF_SIZE ∧
      (List.replicate BUF_SIZE 3).length = BUF_SIZE ∧
      (⟨0, Cmd.WRITE, 7, 5, BUF_SIZE + 2, BUF_SIZE⟩ : Request).flags &&& FUA_COMPLEMENT = 0 ∧
      (List.replicate 300000 0).length < U64 ∧
      (⟨0, Cmd.WRITE, 7, 5, BUF_SIZE + 2, BUF_SIZE⟩ : Request).offset + BUF_SIZE ≤
        (List.replicate 300000 0).length) ∧
    (step (List.replicate 300000 0) ⟨0, Cmd.WRITE, 7, 5, BUF_SIZE + 2, BUF_SIZE⟩
        (List.replicate BUF_SIZE 3)).2.1 =
      some (SimpleReply.mkOk ⟨0, Cmd.WRITE, 7, 5, BUF_SIZE + 2, BUF_SIZE⟩) ∧
    (step (List.replicate 300000 0) ⟨0, Cmd.WRITE, 7, 5, BUF_SIZE + 2, BUF_SIZE⟩
        (List.replicate BUF_SIZE 3)).2.2 = true := by
  refine ⟨⟨rfl, by norm_num, rfl, by rw [List.length_replicate], by decide,
    by rw [List.length_replicate]; norm_num [U64],
    by rw [List.length_replicate]; norm_num [BUF_SIZE]⟩, ?_⟩
  exact (write_big_len_truncated (List.replicate 300000 0)
    ⟨0, Cmd.WRITE, 7, 5, BUF_SIZE + 2, BUF_SIZE⟩ (List.replicate BUF_SIZE 3)
    rfl (by norm_num) rfl (by rw [List.length_replicate]) (by decide)
    (by rw [List.length_replicate]; norm_num [U64])).1
    (by rw [List.length_replicate]; norm_num [BUF_SIZE])

/-- C4 counterexample: a WRITE with `len = 262145` whose truncated 262144
payload bytes fit in the store is answered with an OK reply (err = OK),
not an EOVERFLOW error, and the session loop continues. -/
theorem write_big_len_ok_counterexample :
    ((step (List.replicate BUF_SIZE 0) ⟨0, Cmd.WRITE, 42, 0, BUF_SIZE + 1, BUF_SIZE⟩
        (List.replicate BUF_SIZE 1)).2.1).map SimpleReply.err = some ErrorType.OK ∧
    (step (List.replicate BUF_SIZE 0) ⟨0, Cmd.WRITE, 42, 0, BUF_SIZE + 1, BUF_SIZE⟩
        (List.replicate BUF_SIZE 1)).2.2 = true := by
  have h := step_write_ok (List.replicate BUF_SIZE 0) ⟨0, Cmd.WRITE, 42, 0, BUF_SIZE + 1, BUF_SIZE⟩
    (List.replicate BUF_SIZE 1) rfl (by decide) (by rw [List.length_replicate])
    (by rw [List.length_replicate]; norm_num) (by rw [List.length_replicate]; norm_num [U64, BUF_SIZE])
  exact ⟨by rw [h.1]; rfl, h.2⟩

/-- C2 witness draft -/
theorem handle_echo_witness :
    0 < (handleOps [1, 2, 3] [(⟨0, Cmd.READ, 5, 0, 2, 0⟩, [0, 0])]).length ∧
    (0 < ([(((⟨0, Cmd.READ, 5, 0, 2, 0⟩ : Request), ([0, 0] : List Nat)))] : List (Request × List Nat)).length ∧
      ((handleOps [1, 2, 3] [(⟨0, Cmd.READ, 5, 0, 2, 0⟩, [0, 0])]).getD 0
          ⟨ErrorType.OK, 0, []⟩).handle =
        (([(((⟨0, Cmd.READ, 5, 0, 2, 0⟩ : Request), ([0, 0] : List Nat)))].getD 0
          (⟨0, Cmd.READ, 0, 0, 0, 0⟩, [])).1).handle) :=
  ⟨by decide, handle_echo [1, 2, 3] [(⟨0, Cmd.READ, 5, 0, 2, 0⟩, [0, 0])] 0 (by decide)⟩

/-- C3 witness draft -/
theorem read_reply_payload_witness :
    (⟨0, Cmd.READ, 9, 1, 2, 0⟩ : Request).typ = Cmd.READ ∧
    (∀ r, (step [5, 6, 7, 8] ⟨0, Cmd.READ, 9, 1, 2, 0⟩ [0, 0]).2.1 = some r →
      (r.err = ErrorType.OK → r.data.length = (⟨0, Cmd.READ, 9, 1, 2, 0⟩ : Request).len) ∧
      (r.err ≠ ErrorType.OK → r.data = [])) :=
  ⟨rfl, read_reply_payload [5, 6, 7, 8] ⟨0, Cmd.READ, 9, 1, 2, 0⟩ [0, 0] rfl⟩

/-! Round-trip lemmas for the wire codec. -/

theorem readExact_exact (xs : List Nat) : readExact xs.length xs = some (xs, []) := by
  simp [readExact]

theorem readBE_IHAVEOPT (rest : List Nat) :
    readBE 8 (beBytes 8 IHAVEOPT ++ rest) = some (IHAVEOPT, rest) :=
  readBE_beBytes 8 IHAVEOPT rest (by norm_num [IHAVEOPT])

theorem readBE_REQUEST_MAGIC (rest : List Nat) :
    readBE 4 (beBytes 4 REQUEST_MAGIC ++ rest) = some (REQUEST_MAGIC, rest) :=
  readBE_beBytes 4 REQUEST_MAGIC rest (by norm_num [REQUEST_MAGIC])

theorem readBE_optType (t : OptType) (rest : List Nat) :
    readBE 4 (beBytes 4 t.toNat ++ rest) = some (t.toNat, rest) :=
  readBE_beBytes 4 t.toNat rest (optType_toNat_lt t)

theorem readBE_cmd (t : Cmd) (rest : List Nat) :
    readBE 2 (beBytes 2 t.toNat ++ rest) = some (t.toNat, rest) :=
  readBE_beBytes 2 t.toNat rest (cmd_toNat_lt t)

theorem readBE_errType (t : ErrorType) (rest : List Nat) :
    readBE 4 (beBytes 4 t.toNat ++ rest) = some (t.toNat, rest) :=
  readBE_beBytes 4 t.toNat rest (errType_toNat_lt t)

/-- Parsing a well-formed option frame with any trailing bytes. -/
theorem opt_get_frame (typ : OptType) (data rest : List Nat) (h : data.length < 10000) :
    Opt.get (beBytes 8 IHAVEOPT ++ beBytes 4 typ.toNat ++ beBytes 4 data.length ++
      (data ++ rest)) = some (⟨typ, data⟩, rest) := by
  have hlen : readBE 4 (beBytes 4 data.length ++ (data ++ rest)) =
      some (data.length, data ++ rest) :=
    readBE_beBytes 4 data.length _ (lt_trans h (by norm_num))
  have hre : readExact data.length (data ++ rest) = some (data, rest) :=
    readExact_append data rest data.length rfl
  simp only [Opt.get, List.append_assoc, readBE_IHAVEOPT, readBE_optType,
    optType_tryFrom_toNat, hlen, hre, if_pos h, if_true, eq_self_iff_true]

/-- An option frame whose length field is at least 10000 is rejected
regardless of its payload. -/
theorem opt_get_reject (typ : OptType) (lenField : Nat) (payload : List Nat)
    (h : 10000 ≤ lenField) (h2 : lenField < 2 ^ 32) :
    Opt.get (beBytes 8 IHAVEOPT ++ beBytes 4 typ.toNat ++ beBytes 4 lenField ++ payload)
      = none := by
  have hlen : readBE 4 (beBytes 4 lenField ++ payload) = some (lenField, payload) :=
    readBE_beBytes 4 lenField _ (lt_of_lt_of_le h2 (by norm_num))
  simp only [Opt.get, List.append_assoc, readBE_IHAVEOPT, readBE_optType,
    optType_tryFrom_toNat, hlen, if_neg (by omega : ¬ lenField < 10000),
    if_true, eq_self_iff_true]

/-- `Opt` round trip. -/
theorem opt_get_put (o : Opt) (h : o.data.length < 10000) :
    Opt.get (Opt.put o) = some (o, []) := by
  have hmod : o.data.length % 2 ^ 32 = o.data.length :=
    Nat.mod_eq_of_lt (lt_trans h (by norm_num))
  have := opt_get_frame o.typ o.data [] h
  rw [List.append_nil] at this
  unfold Opt.put
  rw [hmod]
  exact this

/-- `Request` round trip: a well-formed request (valid flag bits, in-range
fields, WRITE carrying exactly `len` payload bytes into a buffer of at least
`len` bytes, other commands carrying none) parses back bit-exactly. -/
theorem request_get_put (req : Request) (data : List Nat) (bufLen : Nat)
    (hflags : req.flags &&& CMD_FLAGS_ALL = req.flags)
    (hhandle : req.handle < 2 ^ 64) (hoffset : req.offset < 2 ^ 64)
    (hlen : req.len < 2 ^ 32)
    (hw : req.typ = Cmd.WRITE → req.dataLen = req.len ∧ req.len ≤ bufLen)
    (hnw : req.typ ≠ Cmd.WRITE → req.dataLen = 0)
    (hdata : req.dataLen ≤ data.length) :
    Request.get bufLen (Request.put req data) = some (req, data.take req.dataLen, []) := by
  obtain ⟨f, t, hd, off, l, dl⟩ := req
  simp only at hflags hhandle hoffset hlen hw hnw hdata
  have hfb : CmdFlags.from_bits f = some f := by
    simp [CmdFlags.from_bits, hflags]
  have hf2 : readBE 2 (beBytes 2 f ++ (beBytes 2 t.toNat ++ (beBytes 8 hd ++
      (beBytes 8 off ++ (beBytes 4 l ++ data.take dl))))) =
      some (f, beBytes 2 t.toNat ++ (beBytes 8 hd ++ (beBytes 8 off ++
        (beBytes 4 l ++ data.take dl)))) := by
    refine readBE_beBytes 2 f _ ?_
    have : f ≤ CMD_FLAGS_ALL := hflags ▸ Nat.and_le_right
    unfold CMD_FLAGS_ALL at this
    omega
  have hh8 : ∀ rest : List Nat, readBE 8 (beBytes 8 hd ++ rest) = some (hd, rest) :=
    fun rest => readBE_beBytes 8 hd rest (by
      calc hd < 2 ^ 64 := hhandle
        _ = 256 ^ 8 := by norm_num)
  have ho8 : ∀ rest : List Nat, readBE 8 (beBytes 8 off ++ rest) = some (off, rest) :=
    fun rest => readBE_beBytes 8 off rest (by
      calc off < 2 ^ 64 := hoffset
        _ = 256 ^ 8 := by norm_num)
  have hl4 : ∀ rest : List Nat, readBE 4 (beBytes 4 l ++ rest) = some (l, rest) :=
    fun rest => readBE_beBytes 4 l rest (by
      calc l < 2 ^ 32 := hlen
        _ = 256 ^ 4 := by norm_num)
  by_cases hty : t = Cmd.WRITE
  · obtain ⟨hdl, hbl⟩ := hw hty
    subst hty
    subst hdl
    have htk : (data.take dl).length = dl := by
      simp only [List.length_take]
      omega
    have hre : readExact dl (data.take dl) = some (data.take dl, []) := by
      have h0 := readExact_append (data.take dl) [] dl htk
      rwa [List.append_nil] at h0
    simp only [Request.put, Request.get, List.append_assoc, readBE_REQUEST_MAGIC,
      hf2, hfb, readBE_cmd, cmd_tryFrom_toNat, hh8, ho8, hl4, Nat.min_eq_left hbl, hre,
      if_true, eq_self_iff_true, if_pos]
  · have hdl0 : dl = 0 := hnw hty
    subst hdl0
    simp only [Request.put, Request.get, List.append_assoc, readBE_REQUEST_MAGIC,
      hf2, hfb, readBE_cmd, cmd_tryFrom_toNat, hh8, ho8, hl4,
      if_true, eq_self_iff_true, if_neg hty]
    simp [List.take_zero]

/-- `SimpleReply` round trip: parsing with a destination buffer of exactly
the payload length recovers the reply bit-exactly. -/
theorem simpleReply_get_put (r : SimpleReply) (hh : r.handle < 2 ^ 64) :
    SimpleReply.get r.data.length (SimpleReply.put r) = some (r, []) := by
  obtain ⟨e, h, d⟩ := r
  simp only at hh
  have hh8 : ∀ rest : List Nat, readBE 8 (beBytes 8 h ++ rest) = some (h, rest) :=
    fun rest => readBE_beBytes 8 h rest (by
      calc h < 2 ^ 64 := hh
        _ = 256 ^ 8 := by norm_num)
  have hlen4 : (beBytes 4 SIMPLE_REPLY_MAGIC).length = 4 := beBytes_length 4 _
  have htake : (beBytes 4 SIMPLE_REPLY_MAGIC ++ (beBytes 4 e.toNat ++ (beBytes 8 h ++ d))).take 4
      = beBytes 4 SIMPLE_REPLY_MAGIC := List.take_left' hlen4
  have hdrop : (beBytes 4 SIMPLE_REPLY_MAGIC ++ (beBytes 4 e.toNat ++ (beBytes 8 h ++ d))).drop 4
      = beBytes 4 e.toNat ++ (beBytes 8 h ++ d) := List.drop_left' hlen4
  have hlen0 :
      4 - (beBytes 4 SIMPLE_REPLY_MAGIC ++ (beBytes 4 e.toNat ++ (beBytes 8 h ++ d))).length
        = 0 := by
    simp [beBytes_length]
  simp only [SimpleReply.put, SimpleReply.get, List.append_assoc, htake, hdrop, hlen0,
    List.replicate_zero, List.append_nil,
    beVal_beBytes 4 SIMPLE_REPLY_MAGIC (by norm_num [SIMPLE_REPLY_MAGIC]),
    readBE_errType, errType_tryFrom_toNat, hh8, readExact_exact,
    if_true, eq_self_iff_true]

/-- C6: round trip of the wire codec: for every well-formed option frame,
request (valid flag bits, in-range fields, a WRITE carrying `data_len = len`
bytes into a buffer of at least `len` bytes, other commands carrying no
payload) and simple reply (with the payload length known to the reader),
parsing the bytes emitted by `put` returns the original value bit-exactly. -/
theorem codec_roundtrip :
    (∀ o : Opt, o.data.length < 10000 → Opt.get (Opt.put o) = some (o, [])) ∧
    (∀ (req : Request) (data : List Nat) (bufLen : Nat),
      req.flags &&& CMD_FLAGS_ALL = req.flags → req.handle < 2 ^ 64 →
      req.offset < 2 ^ 64 → req.len < 2 ^ 32 →
      (req.typ = Cmd.WRITE → req.dataLen = req.len ∧ req.len ≤ bufLen) →
      (req.typ ≠ Cmd.WRITE → req.dataLen = 0) → req.dataLen ≤ data.length →
      Request.get bufLen (Request.put req data) = some (req, data.take req.dataLen, [])) ∧
    (∀ r : SimpleReply, r.handle < 2 ^ 64 →
      SimpleReply.get r.data.length (SimpleReply.put r) = some (r, [])) :=
  ⟨opt_get_put,
    fun req data bufLen h1 h2 h3 h4 h5 h6 h7 =>
      request_get_put req data bufLen h1 h2 h3 h4 h5 h6 h7,
    simpleReply_get_put⟩

theorem codec_roundtrip_witness :
    (([2, 3, 4, 5] : List Nat).length < 10000 ∧
      Opt.get (Opt.put ⟨OptType.INFO, [2, 3, 4, 5]⟩) = some (⟨OptType.INFO, [2, 3, 4, 5]⟩, [])) ∧
    ((⟨1, Cmd.WRITE, 1234, 5123, 3, 3⟩ : Request).flags &&& CMD_FLAGS_ALL = 1 ∧
      Request.get 8 (Request.put ⟨1, Cmd.WRITE, 1234, 5123, 3, 3⟩ [10, 20, 30]) =
        some (⟨1, Cmd.WRITE, 1234, 5123, 3, 3⟩, ([10, 20, 30] : List Nat).take 3, [])) ∧
    ((99 : Nat) < 2 ^ 64 ∧
      SimpleReply.get ([1, 2] : List Nat).length (SimpleReply.put ⟨ErrorType.Eio, 99, [1, 2]⟩) =
        some (⟨ErrorType.Eio, 99, [1, 2]⟩, [])) :=
  ⟨⟨by norm_num, codec_roundtrip.1 ⟨OptType.INFO, [2, 3, 4, 5]⟩ (by norm_num)⟩,
    ⟨by decide,
      codec_roundtrip.2.1 ⟨1, Cmd.WRITE, 1234, 5123, 3, 3⟩ [10, 20, 30] 8 (by decide)
        (by norm_num) (by norm_num) (by norm_num) (fun _ => ⟨rfl, by norm_num⟩)
        (by decide) (by norm_num)⟩,
    ⟨by norm_num, codec_roundtrip.2.2 ⟨ErrorType.Eio, 99, [1, 2]⟩ (by norm_num)⟩⟩

/-- C7 counterexample: an option frame whose length field is exactly 10000
is rejected by the parser (the code requires `option_len < 10_000`), so
10000 is not accepted as the claim states. -/
theorem opt_len_10000_counterexample :
    Opt.get (beBytes 8 IHAVEOPT ++ beBytes 4 OptType.LIST.toNat ++ beBytes 4 10000 ++
      List.replicate 10000 0) = none :=
  opt_get_reject OptType.LIST 10000 (List.replicate 10000 0) (by norm_num) (by norm_num)

/-- C7 (amended): the option parser accepts a data length strictly below
10000 (reading exactly that many bytes of option data) and fails with a
protocol error for every length field of 10000 or more. -/
theorem opt_len_bound :
    (∀ (typ : OptType) (data rest : List Nat), data.length < 10000 →
      Opt.get (beBytes 8 IHAVEOPT ++ beBytes 4 typ.toNat ++ beBytes 4 data.length ++
        (data ++ rest)) = some (⟨typ, data⟩, rest)) ∧
    (∀ (typ : OptType) (lenField : Nat) (payload : List Nat),
      10000 ≤ lenField → lenField < 2 ^ 32 →
      Opt.get (beBytes 8 IHAVEOPT ++ beBytes 4 typ.toNat ++ beBytes 4 lenField ++ payload)
        = none) :=
  ⟨opt_get_frame, opt_get_reject⟩

theorem opt_len_bound_witness :
    (([7, 7, 7] : List Nat).length < 10000 ∧
      Opt.get (beBytes 8 IHAVEOPT ++ beBytes 4 OptType.INFO.toNat ++
        beBytes 4 ([7, 7, 7] : List Nat).length ++ ([7, 7, 7] ++ [9])) =
        some (⟨OptType.INFO, [7, 7, 7]⟩, [9])) ∧
    ((10000 : Nat) ≤ 123456 ∧ (123456 : Nat) < 2 ^ 32 ∧
      Opt.get (beBytes 8 IHAVEOPT ++ beBytes 4 OptType.GO.toNat ++ beBytes 4 123456 ++ [])
        = none) :=
  ⟨⟨by norm_num, opt_len_bound.1 OptType.INFO [7, 7, 7] [9] (by norm_num)⟩,
    ⟨by norm_num, by norm_num, opt_len_bound.2 OptType.GO 123456 [] (by norm_num) (by norm_num)⟩⟩

/-- C8 counterexample: a client whose INFO/GO request list already contains
EXPORT receives two INFO(EXPORT) replies, not exactly one: the server
chains EXPORT onto the requested list unconditionally. -/
theorem info_export_duplicated_counterexample :
    List.count (exportInfoReply 1024 OptType.GO) (infoResponses 1024 OptType.GO [InfoType.EXPORT])
      = 2 ∧
    List.count (exportInfoReply 1024 OptType.GO) (infoResponses 1024 OptType.GO [InfoType.EXPORT])
      ≠ 1 := by
  constructor
  · decide
  · decide

/-- C8 (amended): for an INFO or GO option whose requested info types are
all EXPORT or BLOCK_SIZE, the server emits one INFO reply per requested
type in order, then always one further INFO(EXPORT) reply (even when
EXPORT was already requested), and ends the exchange with an ACK. -/
theorem info_responses_spec (size : Nat) (optTyp : OptType) (typs : List InfoType)
    (h : ∀ t ∈ typs, t = InfoType.EXPORT ∨ t = InfoType.BLOCK_SIZE) :
    infoResponses size optTyp typs =
      typs.map (infoReplyFor size optTyp) ++
        [exportInfoReply size optTyp, OptReply.ack optTyp] := by
  unfold infoResponses
  revert h
  induction typs with
  | nil =>
    intro h
    simp [infoResponsesGo]
  | cons t ts ih =>
    intro h
    have ht := h t (by simp)
    have h2 : ∀ x ∈ ts, x = InfoType.EXPORT ∨ x = InfoType.BLOCK_SIZE := fun x hx =>
      h x (by simp [hx])
    rcases ht with h1 | h1 <;> subst h1 <;>
      simp [infoResponsesGo, infoReplyFor, ih h2]

theorem info_responses_spec_witness :
    (∀ t ∈ [InfoType.BLOCK_SIZE], t = InfoType.EXPORT ∨ t = InfoType.BLOCK_SIZE) ∧
    infoResponses 2048 OptType.INFO [InfoType.BLOCK_SIZE] =
      [InfoType.BLOCK_SIZE].map (infoReplyFor 2048 OptType.INFO) ++
        [exportInfoReply 2048 OptType.INFO, OptReply.ack OptType.INFO] :=
  ⟨by decide, info_responses_spec 2048 OptType.INFO [InfoType.BLOCK_SIZE] (by decide)⟩

